import Mathlib

/-!
Verification of the PR-comment aggregation and GraphQL pagination engine of
`autocoder_utils/gh_pr_helper.py`.

The Python source is shallowly embedded: pure helpers become Lean functions,
the pagination loops become fuel-indexed recursions over an explicit response
environment (a function from the request cursor actually sent to the page the
host returns), and operations that can raise become functions into `Except`.
Network calls are observed through explicit request traces that the loop
definitions return alongside their results.
-/

/-! ## Python string primitives

These model the exact `str` operations the source uses: `strip`, `splitlines`,
`lower`, substring containment (`in`), and `"\n".join`.  `splitlines` covers
the ASCII line boundaries Python recognises (`\n`, `\r`, `\r\n`, `\v`, `\f`,
`\x1c`-`\x1e`, `\x85`, ` `, ` `).  `lower` is ASCII-only here; every
needle searched by the source is ASCII. -/

def isPyWhitespace (c : Char) : Bool :=
  c = ' ' || c = '\t' || c = '\n' || c = '\r' || c = '\x0b' || c = '\x0c'

def pyStripList (l : List Char) : List Char :=
  ((l.dropWhile isPyWhitespace).reverse.dropWhile isPyWhitespace).reverse

/-- Python `str.strip()` with no argument: remove leading/trailing whitespace. -/
def pyStrip (s : String) : String :=
  ⟨pyStripList s.data⟩

def isPyLineBreak (c : Char) : Bool :=
  c = '\n' || c = '\r' || c = '\x0b' || c = '\x0c' || c = '\x1c' || c = '\x1d' ||
  c = '\x1e' || c = '\x85' || c = ' ' || c = ' '

def splitlinesAux : List Char → List Char → List String
  | [], acc => if acc.isEmpty then [] else [⟨acc.reverse⟩]
  | '\r' :: '\n' :: rest, acc => String.mk acc.reverse :: splitlinesAux rest []
  | c :: rest, acc =>
    if isPyLineBreak c then String.mk acc.reverse :: splitlinesAux rest []
    else splitlinesAux rest (c :: acc)

/-- Python `str.splitlines()`. -/
def pySplitlines (s : String) : List String :=
  splitlinesAux s.data []

/-- Python `str.lower()` (ASCII). -/
def pyLower (s : String) : String :=
  ⟨s.data.map Char.toLower⟩

/-- Python `needle in hay` substring containment. -/
def containsSub (needle hay : String) : Bool :=
  hay.data.tails.any (fun t => needle.data.isPrefixOf t)

/-- Python `"\n".join(lines)`. -/
def joinNL (lines : List String) : String :=
  String.intercalate "\n" lines

/-- The `for idx, line in enumerate(lines): if p(line): start_idx = idx; break`
search pattern of the source: index of the first element satisfying `p`. -/
def firstIdxFrom (p : String → Bool) : List String → Option Nat
  | [] => none
  | x :: xs => if p x then some 0 else (firstIdxFrom p xs).map (· + 1)

/-- Python `value or default` for an optional string, where both a missing
value (`None`) and the empty string are falsy. -/
def pyOrStr (o : Option String) (d : String) : String :=
  match o with
  | none => d
  | some "" => d
  | some s => s

/-- Python f-string rendering of an optional string: `None` prints as "None". -/
def pyFmtOptStr : Option String → String
  | none => "None"
  | some s => s

/-- Python truthiness of an optional integer: `None` and `0` are falsy. -/
def pyTruthyInt : Option Int → Bool
  | none => false
  | some v => v != 0

/-- Python string comparison `a <= b`: lexicographic by code point. -/
def lexLe : List Char → List Char → Bool
  | [], _ => true
  | _ :: _, [] => false
  | x :: xs, y :: ys =>
    if x.toNat < y.toNat then true
    else if y.toNat < x.toNat then false
    else lexLe xs ys

def pyStrLe (a b : String) : Bool := lexLe a.data b.data

theorem lexLe_total : ∀ xs ys : List Char, lexLe xs ys = true ∨ lexLe ys xs = true := by
  intro xs
  induction xs with
  | nil => intro ys; exact Or.inl rfl
  | cons x xs ih =>
    intro ys
    cases ys with
    | nil => exact Or.inr rfl
    | cons y ys =>
      rcases Nat.lt_trichotomy x.toNat y.toNat with h | h | h
      · left
        simp [lexLe, h]
      · have hxy : ¬ x.toNat < y.toNat := by omega
        have hyx : ¬ y.toNat < x.toNat := by omega
        rcases ih ys with h' | h'
        · left; simp [lexLe, hxy, hyx, h']
        · right; simp [lexLe, hxy, hyx, h']
      · right
        simp [lexLe, h]

theorem lexLe_trans :
  ∀ (xs ys zs : List Char), lexLe xs ys = true → lexLe ys zs = true →
    lexLe xs zs = true := by
  intro xs
  induction xs with
  | nil => intro ys zs _ _; rfl
  | cons x xs ih =>
    intro ys zs h1 h2
    cases ys with
    | nil => simp [lexLe] at h1
    | cons y ys =>
      cases zs with
      | nil => simp [lexLe] at h2
      | cons z zs =>
        simp only [lexLe] at h1 h2
        simp only [lexLe]
        by_cases hxy : x.toNat < y.toNat
        · simp only [hxy, if_true] at h1
          by_cases hyz : y.toNat < z.toNat
          · simp [show x.toNat < z.toNat by omega]
          · simp only [hyz, if_false] at h2
            by_cases hzy : z.toNat < y.toNat
            · simp [hzy] at h2
            · simp [show x.toNat < z.toNat by omega]
        · simp only [hxy, if_false] at h1
          by_cases hyx : y.toNat < x.toNat
          · simp [hyx] at h1
          · simp only [hyx, if_false] at h1
            by_cases hyz : y.toNat < z.toNat
            · simp [show x.toNat < z.toNat by omega]
            · simp only [hyz, if_false] at h2
              by_cases hzy : z.toNat < y.toNat
              · simp [hzy] at h2
              · simp only [hzy, if_false] at h2
                have hxz : ¬ x.toNat < z.toNat := by omega
                have hzx : ¬ z.toNat < x.toNat := by omega
                simp only [hxz, hzx, if_false]
                exact ih ys zs h1 h2

/-! ## Log summarization (`_summarize_ci_log`, source lines 479-506) -/

def summaryNeedle : String := "short test summary info"

def failedNeedle : String := "failed"

/-- `lines = log_output.strip().splitlines()` (line 486). -/
def summaryLines (log_output : String) : List String :=
  pySplitlines (pyStrip log_output)

/-- `"short test summary info" in line.lower()` (line 492). -/
def hasSummaryMarker (l : String) : Bool :=
  containsSub summaryNeedle (pyLower l)

/-- `"failed" in line.lower()` (line 498). -/
def hasFailedMarker (l : String) : Bool :=
  containsSub failedNeedle (pyLower l)

/-- Embedding of `_summarize_ci_log(log_output, include_full_log)`. -/
def _summarize_ci_log (log_output : String) (include_full_log : Bool) : String :=
  if include_full_log || log_output = "" then log_output
  else
    let lines := summaryLines log_output
    if lines = [] then ""
    else
      let start_idx :=
        match firstIdxFrom hasSummaryMarker lines with
        | some i => i
        | none =>
          match firstIdxFrom hasFailedMarker lines with
          | some i => i
          | none => lines.length - 40
      pyStrip (joinNL (lines.drop start_idx))

/-! ## Data model -/

/-- A comment node as returned inside the GraphQL review-thread query:
`author { login }` (the author object may be null), `body`, `url`, `diffHunk`.
`diffHunk` may be null. -/
structure CommentNode where
  author : Option String
  body : String
  url : Option String
  diffHunk : Option String
deriving Repr, DecidableEq

/-- The nested `comments(first: 100)` page carried by a thread node. -/
structure ThreadComments where
  nodes : List CommentNode
  hasNextPage : Bool
  endCursor : Option String
deriving Repr, DecidableEq

/-- A review-thread node: resolution flag, anchor, and nested comment page. -/
structure ThreadNode where
  isResolved : Bool
  path : String
  line : Option Int
  startLine : Option Int
  comments : ThreadComments
deriving Repr, DecidableEq

/-- An edge of the `reviewThreads` connection; `edge.get("node") or {}` in the
source means a null node is processed as an all-defaults thread. -/
structure ThreadEdge where
  node : Option ThreadNode
deriving Repr, DecidableEq

/-- The triple returned by `_fetch_review_threads_page`. -/
structure ThreadsPage where
  threads : List ThreadEdge
  hasNextPage : Bool
  endCursor : Option String
deriving Repr, DecidableEq

/-- The normalized review-comment record built by
`fetch_review_comments_graphql` (source lines 341-352): all keys are present,
optional fields hold `None` when the API returned null. -/
structure ReviewComment where
  path : String
  line : Option Int
  start_line : Option Int
  original_line : Option Int
  diff_hunk : Option String
  user_login : String
  body : String
  url : Option String
deriving Repr, DecidableEq

/-- An issue (general PR) comment as consumed by the renderer. -/
structure IssueComment where
  user_login : String
  body : String
deriving Repr, DecidableEq

/-- A failed check run as returned by `fetch_failed_ci_runs`. -/
structure FailedRun where
  name : Option String
  details_url : Option String
  workflow_run_id : Option Int
  workflow_url : Option String
deriving Repr, DecidableEq

/-- A CI failure record as built by `collect_ci_failures`. -/
structure CIFailure where
  name : String
  workflow_run_id : Option Int
  details_url : Option String
  workflow_url : Option String
  log_output : String
deriving Repr, DecidableEq

/-! ## Review-comment pagination (`fetch_review_comments_graphql`, lines 309-387)

The host is modelled as two response environments: `tenv` maps the
`threadsAfter` value actually sent (or `none` when the parameter is omitted)
to a threads page, `cenv` likewise for `commentsAfter`.  The loops are
fuel-indexed; the boolean in the result records whether the Python loop
halted within the given fuel (`false` means the run was still going).  The
third component is the trace of `commentsAfter` values sent to
`_fetch_thread_comments_page`. -/

/-- `if cursor:`-guarded parameter passing: `None` and `""` are falsy, so the
request goes out without the parameter. -/
def sentCursor : Option String → Option String
  | none => none
  | some "" => none
  | some s => some s

/-- Source lines 328-330 and 339-352: normalization of one comment node using
the enclosing thread's anchor. -/
def mkReviewComment (t : ThreadNode) (c : CommentNode) : ReviewComment :=
  { path := t.path
    line := t.line
    start_line := t.startLine
    original_line := t.line
    diff_hunk := c.diffHunk
    user_login := match c.author with | some l => l | none => "unknown"
    body := c.body
    url := c.url }

/-- The inner `while True` of lines 334-380, per unresolved thread.  Each
iteration re-reads the thread's embedded first comment page (lines 336-337),
emits it, and — when that page reports `hasNextPage` — issues one
thread-comments request with that page's `endCursor` (lines 359-361) and emits
the response; `next_comment_cursor` is never consulted, exactly as in the
source. -/
def commentLoop (cenv : Option String → ThreadComments) :
    Nat → ThreadNode → Bool × List ReviewComment × List (Option String)
  | 0, _ => (false, [], [])
  | fuel + 1, t =>
    let out1 := t.comments.nodes.map (mkReviewComment t)
    if !t.comments.hasNextPage then (true, out1, [])
    else
      let req := sentCursor t.comments.endCursor
      let page := cenv req
      let out2 := page.nodes.map (mkReviewComment t)
      if !page.hasNextPage then (true, out1 ++ out2, [req])
      else
        let rest := commentLoop cenv fuel t
        (rest.1, out1 ++ out2 ++ rest.2.1, req :: rest.2.2)

/-- Lines 324-326: a resolved thread is skipped before any comment handling. -/
def processThread (cenv : Option String → ThreadComments) (fuel : Nat)
    (t : ThreadNode) : Bool × List ReviewComment × List (Option String) :=
  if t.isResolved then (true, [], []) else commentLoop cenv fuel t

/-- `thread = edge.get("node") or {}` (line 324): a missing node behaves as an
unresolved thread with default fields. -/
def defaultThreadNode : ThreadNode :=
  { isResolved := false
    path := "unknown"
    line := none
    startLine := none
    comments := { nodes := [], hasNextPage := false, endCursor := none } }

def processEdge (cenv : Option String → ThreadComments) (fuel : Nat)
    (e : ThreadEdge) : Bool × List ReviewComment × List (Option String) :=
  processThread cenv fuel (match e.node with | some t => t | none => defaultThreadNode)

/-- The `for edge in threads` loop of line 323; a diverging inner loop stops
the whole run. -/
def processThreads (cenv : Option String → ThreadComments) (fuel : Nat) :
    List ThreadEdge → Bool × List ReviewComment × List (Option String)
  | [] => (true, [], [])
  | e :: es =>
    let r := processEdge cenv fuel e
    if r.1 then
      let rest := processThreads cenv fuel es
      (rest.1, r.2.1 ++ rest.2.1, r.2.2 ++ rest.2.2)
    else (false, r.2.1, r.2.2)

/-- The outer `while True` of lines 318-385: fetch a threads page at the
current cursor, process its threads, and continue with the page's `endCursor`
while `hasNextPage` holds. -/
def fetchLoop (tenv : Option String → ThreadsPage)
    (cenv : Option String → ThreadComments) (innerFuel : Nat) :
    Nat → Option String → Bool × List ReviewComment × List (Option String)
  | 0, _ => (false, [], [])
  | outerFuel + 1, cursor =>
    let page := tenv (sentCursor cursor)
    let r := processThreads cenv innerFuel page.threads
    if !r.1 then (false, r.2.1, r.2.2)
    else if !page.hasNextPage then (true, r.2.1, r.2.2)
    else
      let rest := fetchLoop tenv cenv innerFuel outerFuel page.endCursor
      (rest.1, r.2.1 ++ rest.2.1, r.2.2 ++ rest.2.2)

/-- Embedding of `fetch_review_comments_graphql` over a response environment:
`threads_after` starts as `None` (line 315). -/
def fetchReviewComments (tenv : Option String → ThreadsPage)
    (cenv : Option String → ThreadComments) (innerFuel outerFuel : Nat) :
    Bool × List ReviewComment × List (Option String) :=
  fetchLoop tenv cenv innerFuel outerFuel none

/-! ## CI failure collection (`collect_ci_failures`, lines 509-550)

The per-run log retrieval `fetch_ci_run_log` is modelled as an environment
`lenv : Int → Except String String`; an `.error` corresponds to the
`GitHubAPICallError` the source catches at lines 531-534.  The second
component of the result is the trace of run ids for which a log fetch was
issued. -/

/-- Line 534: the caught error is converted into log text. -/
def logFailMsg (run_id : Int) (msg : String) : String :=
  "Failed to fetch logs for run " ++ toString run_id ++ ": " ++ msg

/-- Line 536: placeholder for runs without a workflow run id. -/
def noRunIdMsg : String := "No workflow run ID available to fetch logs."

/-- Line 524: `str(run_id) if run_id is not None else f"{name}:{details_url}"`,
with `name = run.get("name") or "Failed check"` computed at line 522. -/
def runKey (r : FailedRun) : String :=
  match r.workflow_run_id with
  | some i => toString i
  | none => pyOrStr r.name "Failed check" ++ ":" ++ pyFmtOptStr r.details_url

/-- The `for run in failed_runs` loop of lines 519-548 with the `seen_runs`
set threaded through explicitly. -/
def collectLoop (lenv : Int → Except String String) (include_full_logs : Bool)
    (seen : List String) : List FailedRun → List CIFailure × List Int
  | [] => ([], [])
  | r :: rs =>
    let name := pyOrStr r.name "Failed check"
    let key := runKey r
    if seen.contains key then collectLoop lenv include_full_logs seen rs
    else
      let fetched : String × List Int :=
        match r.workflow_run_id with
        | some i =>
          (match lenv i with
           | .ok s => s
           | .error m => logFailMsg i m, [i])
        | none => (noRunIdMsg, [])
      let entry : CIFailure :=
        { name := name
          workflow_run_id := r.workflow_run_id
          details_url := r.details_url
          workflow_url := r.workflow_url
          log_output := _summarize_ci_log fetched.1 include_full_logs }
      let rest := collectLoop lenv include_full_logs (key :: seen) rs
      (entry :: rest.1, fetched.2 ++ rest.2)

/-- Embedding of `collect_ci_failures` given the already-fetched failed runs
(the claims quantify over that input list directly). -/
def collect_ci_failures (lenv : Int → Except String String)
    (include_full_logs : Bool) (failed_runs : List FailedRun) :
    List CIFailure × List Int :=
  collectLoop lenv include_full_logs [] failed_runs

/-- The dedup key as recomputable from an output record (the entry stores the
already-defaulted name). -/
def ciFailureKey (f : CIFailure) : String :=
  match f.workflow_run_id with
  | some i => toString i
  | none => f.name ++ ":" ++ pyFmtOptStr f.details_url

/-- First-occurrence deduplication of a key sequence relative to an
already-seen set. -/
def dedupKeys (seen : List String) : List String → List String
  | [] => []
  | k :: ks => if seen.contains k then dedupKeys seen ks else k :: dedupKeys (k :: seen) ks

/-- The non-log fields of a `CIFailure`: these never depend on the log
environment. -/
def ciMeta (f : CIFailure) : String × Option Int × Option String × Option String :=
  (f.name, f.workflow_run_id, f.details_url, f.workflow_url)

/-! ## Markdown rendering (`format_comments_as_markdown`, lines 553-637)

The renderer returns `Except String String`: the only failure point is
`comment.get("diff_hunk", "").strip()` at line 593, which raises
`AttributeError` when the stored `diff_hunk` value is `None` (the key is
always present in records built by `fetch_review_comments_graphql`). -/

/-- Line 586: `c.get("line") or c.get("original_line") or 0` — Python `or`
falls through on `None` and on `0`. -/
def pyIntOr (o : Option Int) (d : Int) : Int :=
  match o with
  | none => d
  | some v => if v = 0 then d else v

/-- The sort key used at line 586. -/
def sortKeyCode (c : ReviewComment) : Int :=
  pyIntOr c.line (pyIntOr c.original_line 0)

@[reducible] def keyLE (a b : ReviewComment) : Prop := sortKeyCode a ≤ sortKeyCode b

instance : DecidableRel keyLE := fun _ _ => Int.decLe _ _

instance : IsTotal ReviewComment keyLE := ⟨fun _ _ => Int.le_total _ _⟩

instance : IsTrans ReviewComment keyLE := ⟨fun _ _ _ => Int.le_trans⟩

/-- `sorted(...)` on the `(path, comments)` items compares the distinct path
keys, lexicographically by code point as Python does. -/
@[reducible] def pathLE (a b : String × List ReviewComment) : Prop :=
  pyStrLe a.1 b.1 = true

instance : DecidableRel pathLE := fun _ _ => instDecidableEqBool _ _

instance : IsTotal (String × List ReviewComment) pathLE :=
  ⟨fun a b => lexLe_total a.1.data b.1.data⟩

instance : IsTrans (String × List ReviewComment) pathLE :=
  ⟨fun a b c => lexLe_trans a.1.data b.1.data c.1.data⟩

/-- `comments_by_file.setdefault(file_path, []).append(comment)` (line 582):
append to the existing group, else add a new key at the end. -/
def insertGrouped (m : List (String × List ReviewComment)) (k : String)
    (c : ReviewComment) : List (String × List ReviewComment) :=
  match m with
  | [] => [(k, [c])]
  | (k', g) :: rest =>
    if k' = k then (k', g ++ [c]) :: rest else (k', g) :: insertGrouped rest k c

/-- The grouping loop of lines 579-582 (a dict preserves insertion order). -/
def groupByFile (cs : List ReviewComment) : List (String × List ReviewComment) :=
  cs.foldl (fun m c => insertGrouped m c.path c) []

/-- `sorted(comments_by_file.items())` (line 584) followed by the in-place
stable `file_comments.sort` (line 586); `sorted`/`list.sort` are stable, as is
insertion sort. -/
def sortedGroups (cs : List ReviewComment) : List (String × List ReviewComment) :=
  (List.insertionSort pathLE (groupByFile cs)).map
    (fun pg => (pg.1, List.insertionSort keyLE pg.2))

/-- Lines 588-612: rendering of one review comment; fails on a null
`diff_hunk` exactly where the source raises. -/
def renderReviewComment (c : ReviewComment) : Except String (List String) :=
  match c.diff_hunk with
  | none => .error "AttributeError: 'NoneType' object has no attribute 'strip'"
  | some dh0 =>
    let body := pyStrip c.body
    let dh := pyStrip dh0
    let line_ref :=
      if pyTruthyInt c.start_line && pyTruthyInt c.line && c.start_line != c.line then
        "**Lines " ++ toString (c.start_line.getD 0) ++ "-" ++ toString (c.line.getD 0) ++ "**"
      else if pyTruthyInt c.line then
        "**Line " ++ toString (c.line.getD 0) ++ "**"
      else "**Position in diff**"
    .ok (["#### " ++ line_ref ++ " (@" ++ c.user_login ++ ")\n"]
      ++ (if dh ≠ "" then ["**Code context:**", "```diff", dh, "```\n"] else [])
      ++ ["**Comment:**", body, ""])

def renderReviewComments : List ReviewComment → Except String (List String)
  | [] => .ok []
  | c :: cs =>
    match renderReviewComment c, renderReviewComments cs with
    | .error e, _ => .error e
    | .ok _, .error e => .error e
    | .ok l, .ok ls => .ok (l ++ ls)

def renderGroups : List (String × List ReviewComment) → Except String (List String)
  | [] => .ok []
  | (p, g) :: rest =>
    match renderReviewComments g, renderGroups rest with
    | .error e, _ => .error e
    | .ok _, .error e => .error e
    | .ok l, .ok ls => .ok (("\n### File: `" ++ p ++ "`\n") :: l ++ ls)

/-- Lines 576-612: the "Inline Code Review Comments" section. -/
def reviewSection (cs : List ReviewComment) : Except String (List String) :=
  if cs.isEmpty then .ok []
  else
    match renderGroups (sortedGroups cs) with
    | .error e => .error e
    | .ok ls => .ok ("## Inline Code Review Comments\n" :: ls)

/-- Lines 566-574: the "General PR Comments" section. -/
def issueSection (ics : List IssueComment) : List String :=
  if ics.isEmpty then []
  else "## General PR Comments\n" ::
    ics.flatMap (fun c => ["### @" ++ c.user_login ++ "\n", pyStrip c.body, ""])

def pyRstrip (s : String) : String :=
  ⟨(s.data.reverse.dropWhile isPyWhitespace).reverse⟩

/-- Lines 614-632: the "CI Failures" section. -/
def ciSection (fs : List CIFailure) : List String :=
  if fs.isEmpty then []
  else "## CI Failures\n" ::
    fs.flatMap (fun f =>
      let name := if f.name = "" then "Failed check" else f.name
      let run_label :=
        match f.workflow_run_id with
        | some i => name ++ " (Run ID " ++ toString i ++ ")"
        | none => name
      let log := pyRstrip f.log_output
      ["### " ++ run_label]
      ++ (match f.details_url with
          | some u => if u = "" then [] else ["[Details](" ++ u ++ ")"]
          | none => [])
      ++ (if log ≠ "" then ["```", log, "```\n"] else ["_No logs available._\n"]))

/-- Embedding of `format_comments_as_markdown`. -/
def format_comments_as_markdown (review_comments : List ReviewComment)
    (issue_comments : List IssueComment) (owner repo pr_number : String)
    (ci_failures : Option (List CIFailure)) : Except String String :=
  let title := "# PR Comments: " ++ owner ++ "/" ++ repo ++ "#" ++ pr_number ++ "\n"
  match reviewSection review_comments with
  | .error e => .error e
  | .ok revLines =>
    let ciList := match ci_failures with | none => [] | some l => l
    if issue_comments.isEmpty && review_comments.isEmpty && ciList.isEmpty then
      .ok "No comments found on this PR.\n"
    else
      .ok (String.intercalate "\n"
        (title :: (issueSection issue_comments ++ revLines ++ ciSection ciList)))

/-! ## GraphQL response handling (payload level)

The post-parse logic of `_fetch_review_threads_page` (lines 228-240),
`_fetch_thread_comments_page` (lines 289-306) and `fetch_failed_ci_runs`
(lines 429-463).  A payload holds the optional top-level `errors` array and
an optional `data` part; `data = none` stands for any missing/null step along
the required key path, which the source turns into `GitHubResponseError`. -/

inductive GhError where
  | apiCall (msg : String)
  | jsonError (msg : String)
  | graphQL (msg : String)
  | responseError (msg : String)
deriving Repr, DecidableEq

/-- `if "errors" in payload and payload["errors"]:` — the key must be present
and the list non-empty. -/
def pyErrorsNonempty : Option (List String) → Bool
  | some (_ :: _) => true
  | _ => false

def gqlErrMsg (errs : List String) : String :=
  "GraphQL query returned errors: " ++ String.intercalate ", " errs

def isGraphQLError {α : Type} : Except GhError α → Bool
  | .error (.graphQL _) => true
  | _ => false

/-- `pageInfo` with optional members: `.get("hasNextPage", False)` and
`.get("endCursor")`. -/
structure PageInfo where
  hasNextPage : Option Bool
  endCursor : Option String
deriving Repr, DecidableEq

/-- `data.repository.pullRequest.reviewThreads` for the threads query:
`edges` and `pageInfo` are read with null-tolerant `.get(...) or` defaults. -/
structure ThreadsData where
  edges : Option (List ThreadEdge)
  pageInfo : Option PageInfo
deriving Repr, DecidableEq

structure ThreadsPayload where
  errors : Option (List String)
  data : Option ThreadsData
deriving Repr, DecidableEq

/-- Lines 228-240 of `_fetch_review_threads_page`. -/
def fetchReviewThreadsOfPayload (p : ThreadsPayload) :
    Except GhError (List ThreadEdge × Bool × Option String) :=
  if pyErrorsNonempty p.errors then
    .error (.graphQL (gqlErrMsg (p.errors.getD [])))
  else
    match p.data with
    | none => .error (.responseError
        "Unexpected GraphQL response format when fetching review threads")
    | some d =>
      let threads := d.edges.getD []
      let page_info := d.pageInfo.getD { hasNextPage := none, endCursor := none }
      .ok (threads, page_info.hasNextPage.getD false, page_info.endCursor)

/-- `threads[0].get("node", {}).get("comments", {})` containers for the
thread-comments variant of the query. -/
structure CommentsConn where
  nodes : Option (List CommentNode)
  pageInfo : Option PageInfo
deriving Repr, DecidableEq

structure CommentsEdgeNode where
  comments : Option CommentsConn
deriving Repr, DecidableEq

structure CommentsEdge where
  node : Option CommentsEdgeNode
deriving Repr, DecidableEq

structure CommentsPayload where
  errors : Option (List String)
  data : Option (List CommentsEdge)
deriving Repr, DecidableEq

/-- Lines 289-306 of `_fetch_thread_comments_page`. -/
def fetchThreadCommentsOfPayload (p : CommentsPayload) :
    Except GhError (List CommentNode × Bool × Option String) :=
  if pyErrorsNonempty p.errors then
    .error (.graphQL (gqlErrMsg (p.errors.getD [])))
  else
    match p.data with
    | none => .error (.responseError
        "Unexpected GraphQL response format when fetching thread comments")
    | some threads =>
      match threads with
      | [] => .ok ([], false, none)
      | e :: _ =>
        let comments_data :=
          ((e.node.getD { comments := none }).comments).getD
            { nodes := none, pageInfo := none }
        let comment_nodes := comments_data.nodes.getD []
        let page_info := comments_data.pageInfo.getD { hasNextPage := none, endCursor := none }
        .ok (comment_nodes, page_info.hasNextPage.getD false, page_info.endCursor)

/-- A node of `statusCheckRollup.contexts`; for a `StatusContext` entry the
CheckRun-only keys are absent (`None`). -/
structure WorkflowRun where
  databaseId : Option Int
  url : Option String
deriving Repr, DecidableEq

structure CIContext where
  typename : String
  name : Option String
  conclusion : Option String
  detailsUrl : Option String
  checkSuite_workflowRun : Option WorkflowRun
deriving Repr, DecidableEq

structure Rollup where
  contexts : Option (List CIContext)
deriving Repr, DecidableEq

structure CommitObj where
  statusCheckRollup : Option Rollup
deriving Repr, DecidableEq

structure CommitWrap where
  commit : Option CommitObj
deriving Repr, DecidableEq

/-- `data.repository.pullRequest.commits` with its optional `nodes` list. -/
structure CommitsConn where
  nodes : Option (List CommitWrap)
deriving Repr, DecidableEq

structure CIPayload where
  errors : Option (List String)
  data : Option CommitsConn
deriving Repr, DecidableEq

/-- Lines 441-461: filter the rollup contexts to failed check runs. -/
def failedRunsOfCommits (commit_nodes : List CommitWrap) : List FailedRun :=
  commit_nodes.flatMap (fun node =>
    let commit := node.commit.getD { statusCheckRollup := none }
    let rollup := commit.statusCheckRollup.getD { contexts := none }
    let contexts := rollup.contexts.getD []
    (contexts.filter (fun c =>
        c.typename = "CheckRun" && c.conclusion == some "FAILURE")).map
      (fun c =>
        let wr := c.checkSuite_workflowRun.getD { databaseId := none, url := none }
        { name := c.name
          details_url := c.detailsUrl
          workflow_run_id := wr.databaseId
          workflow_url := wr.url }))

/-- Lines 429-463 of `fetch_failed_ci_runs`. -/
def fetchFailedCIRunsOfPayload (p : CIPayload) : Except GhError (List FailedRun) :=
  if pyErrorsNonempty p.errors then
    .error (.graphQL (gqlErrMsg (p.errors.getD [])))
  else
    match p.data with
    | none => .error (.responseError
        "Unexpected GraphQL response format when fetching CI failures")
    | some commits => .ok (failedRunsOfCommits (commits.nodes.getD []))

/-! ## Spec-side definitions

These two definitions follow the words of the specification (not the source)
and exist only to be compared with the behaviour of the embedded code. -/

/-- Modelled from the spec: "sorted ascending by `line` (falling back to
`original_line`, defaulting to 0 if both absent)" — the fallback applies only
when the field is absent. -/
def specSortKey (c : ReviewComment) : Int :=
  c.line.getD (c.original_line.getD 0)

/-- Modelled from the spec: the CI dedup identity "workflow_run_id if
present, else the pair `(name, details_url)`" — a genuine pair, not a joined
string. -/
def specPairKey (r : FailedRun) : Option Int ⊕ (String × Option String) :=
  match r.workflow_run_id with
  | some i => .inl (some i)
  | none => .inr (pyOrStr r.name "Failed check", r.details_url)

/-! ## Concrete fixtures -/

/-- A review comment whose optional fields are all null, as
`fetch_review_comments_graphql` produces when the API returns null
`diffHunk`/`line`/`startLine`/`url`. -/
def diffHunkNullComment : ReviewComment :=
  { path := "app.py", line := none, start_line := none, original_line := none,
    diff_hunk := none, user_login := "reviewer", body := "please fix", url := none }

def nodeA : CommentNode :=
  { author := some "alice", body := "first", url := none, diffHunk := some "@@ hunk" }

def nodeB : CommentNode :=
  { author := some "bob", body := "second", url := none, diffHunk := some "@@ hunk" }

def nodeC : CommentNode :=
  { author := some "carol", body := "third", url := none, diffHunk := some "@@ hunk" }

/-- An unresolved thread whose embedded first comment page reports a next
page at cursor "c1". -/
def deepThread : ThreadNode :=
  { isResolved := false, path := "app.py", line := some 10, startLine := none,
    comments := { nodes := [nodeA], hasNextPage := true, endCursor := some "c1" } }

/-- Comment-page responses: the page at "c1" reports one more page at "c2",
and the page at "c2" is the last — every cursor chain is finite. -/
def deepCEnv : Option String → ThreadComments := fun c =>
  match c with
  | some "c1" => { nodes := [nodeB], hasNextPage := true, endCursor := some "c2" }
  | some "c2" => { nodes := [nodeC], hasNextPage := false, endCursor := none }
  | _ => { nodes := [], hasNextPage := false, endCursor := none }

/-- A single threads page holding only `deepThread`. -/
def deepTEnv : Option String → ThreadsPage := fun _ =>
  { threads := [{ node := some deepThread }], hasNextPage := false, endCursor := none }

/-! ## C1 / C2: the inner comment-pagination loop -/

/-- C1: the claim says every thread-comments request after a page reporting
more comments is issued with the most recently returned cursor and every
comment appears exactly once.  Evaluating the embedded
`fetch_review_comments_graphql` on `deepThread` (three comment pages,
cursors c1 then c2) for two inner iterations shows the code instead re-issues
the request with the first page's cursor "c1" both times — even though the
most recently returned cursor is "c2" — and re-emits the first and second
pages' comments a second time, with the run still not terminated. -/
theorem comment_pagination_reuses_first_cursor :
  fetchReviewComments deepTEnv deepCEnv 2 1 =
    (false,
     [mkReviewComment deepThread nodeA, mkReviewComment deepThread nodeB,
      mkReviewComment deepThread nodeA, mkReviewComment deepThread nodeB],
     [some "c1", some "c1"]) ∧
  (deepCEnv (some "c1")).endCursor = some "c2" := by
  constructor <;> rfl

theorem commentLoop_deepThread_stuck :
  ∀ fuel, (commentLoop deepCEnv fuel deepThread).1 = false := by
  intro fuel
  induction fuel with
  | zero => rfl
  | succ n ih => simpa [commentLoop, deepThread, deepCEnv, sentCursor] using ih

/-- C2: the claim says the fetch terminates whenever every cursor chain is
finite.  In `deepCEnv` every chain ends after at most two steps
(c1 → c2 → stop), yet the embedded loop never halts, for any amount of inner
and outer fuel: the inner loop keeps re-reading the thread's first page and
re-requesting cursor "c1". -/
theorem fetch_review_comments_never_terminates :
  ∀ innerFuel outerFuel,
    (fetchReviewComments deepTEnv deepCEnv innerFuel outerFuel).1 = false := by
  intro innerFuel outerFuel
  cases outerFuel with
  | zero => rfl
  | succ n =>
    have h := commentLoop_deepThread_stuck innerFuel
    simp [fetchReviewComments, fetchLoop, deepTEnv, sentCursor, processThreads,
      processEdge, processThread, show deepThread.isResolved = false from rfl, h]

/-! ## C3: resolved threads -/

/-- C3: a thread whose `is_resolved` flag is true contributes zero
`ReviewComment` records and no thread-comments fetch is issued for it,
regardless of its comments; in particular, for any environment answering the
first request with a single resolved thread holding N > 0 comments (and no
further pages), the whole aggregation returns the empty list with an empty
comment-request trace. -/
theorem resolved_threads_contribute_nothing :
  (∀ cenv fuel (t : ThreadNode), t.isResolved = true →
      processThread cenv fuel t = (true, [], [])) ∧
  (∀ (tenv : Option String → ThreadsPage) cenv innerFuel outerFuel
      (t : ThreadNode),
      tenv none = { threads := [{ node := some t }], hasNextPage := false,
                    endCursor := none } →
      t.isResolved = true → 0 < t.comments.nodes.length →
      fetchReviewComments tenv cenv innerFuel (outerFuel + 1) = (true, [], [])) := by
  constructor
  · intro cenv fuel t h
    simp [processThread, h]
  · intro tenv cenv innerFuel outerFuel t hpage hres _
    simp [fetchReviewComments, fetchLoop, sentCursor, hpage, processThreads,
      processEdge, processThread, hres]

theorem resolved_threads_contribute_nothing_witness :
  (let t : ThreadNode :=
    { isResolved := true, path := "app.py", line := some 3, startLine := none,
      comments := { nodes := [nodeA, nodeB], hasNextPage := true,
                    endCursor := some "k1" } }
   fetchReviewComments
     (fun _ => { threads := [{ node := some t }], hasNextPage := false,
                 endCursor := none })
     deepCEnv 5 1 = (true, [], [])) := by
  exact resolved_threads_contribute_nothing.2 _ deepCEnv 5 0 _ rfl rfl (by decide)

/-! ## C7: the canonical empty rendering -/

/-- C7: with no issue comments, no review comments, and either no CI-failure
argument or an empty CI-failure list, the renderer returns exactly
`"No comments found on this PR.\n"`, for every owner, repo and PR number. -/
theorem format_empty_inputs_canonical :
  ∀ owner repo pr_number : String,
    format_comments_as_markdown [] [] owner repo pr_number none =
      .ok "No comments found on this PR.\n" ∧
    format_comments_as_markdown [] [] owner repo pr_number (some []) =
      .ok "No comments found on this PR.\n" := by
  intro owner repo pr_number
  constructor <;> rfl

/-! ## C8: totality of the renderer -/

/-- C8: the claim says the renderer is total and never raises, in particular
on review comments whose optional `diff_hunk` is null.  It is not:
`comment.get("diff_hunk", "").strip()` (line 593) receives the stored `None`
(the key is present) and raises `AttributeError`.  Evaluating the embedded
renderer on such a record yields the error. -/
theorem format_raises_on_null_diff_hunk :
  format_comments_as_markdown [diffHunkNullComment] [] "owner" "repo" "1" none =
    .error "AttributeError: 'NoneType' object has no attribute 'strip'" := by
  rfl

/-! ## C9: non-empty `errors` arrays -/

/-- C9: each of the three GraphQL-issuing operations raises the
GraphQL-specific error as soon as the parsed payload carries a non-empty
top-level `errors` array, whatever the `data` field holds. -/
theorem graphql_errors_always_raise :
  ∀ (e : String) (es : List String) (tdata : Option ThreadsData)
    (cdata : Option (List CommentsEdge)) (fdata : Option CommitsConn),
    isGraphQLError (fetchReviewThreadsOfPayload ⟨some (e :: es), tdata⟩) = true ∧
    isGraphQLError (fetchThreadCommentsOfPayload ⟨some (e :: es), cdata⟩) = true ∧
    isGraphQLError (fetchFailedCIRunsOfPayload ⟨some (e :: es), fdata⟩) = true := by
  intro e es tdata cdata fdata
  exact ⟨rfl, rfl, rfl⟩

/-! ## C5: log summarization -/

theorem firstIdxFrom_eq_some (p : String → Bool) :
  ∀ (l : List String) (i : Nat) (h : i < l.length),
    p l[i] = true →
    (∀ j (hj : j < l.length), j < i → p l[j] = false) →
    firstIdxFrom p l = some i := by
  intro l
  induction l with
  | nil => intro i h; exact absurd h (by simp)
  | cons x xs ih =>
    intro i h hp hmin
    cases i with
    | zero =>
      simp only [List.getElem_cons_zero] at hp
      simp [firstIdxFrom, hp]
    | succ n =>
      have hx : p x = false := by
        have := hmin 0 (by simp) (Nat.succ_pos n)
        simpa using this
      have hmin' : ∀ j (hj : j < xs.length), j < n → p xs[j] = false := by
        intro j hj hjn
        have := hmin (j + 1) (by simpa using Nat.succ_lt_succ hj) (Nat.succ_lt_succ hjn)
        simpa using this
      have hrec := ih n (by simpa using h) (by simpa using hp) hmin'
      simp [firstIdxFrom, hx, hrec]

theorem firstIdxFrom_eq_none (p : String → Bool) :
  ∀ l : List String, (∀ x ∈ l, p x = false) → firstIdxFrom p l = none := by
  intro l
  induction l with
  | nil => intro; rfl
  | cons x xs ih =>
    intro hall
    have hx := hall x (List.mem_cons_self x xs)
    simp [firstIdxFrom, hx, ih (fun y hy => hall y (List.mem_cons_of_mem x hy))]

/-- C5: with `include_full_log = true` the summarizer returns the untouched
input; an empty log yields empty output; otherwise, writing `lines` for the
stripped log's lines, if some line contains "short test summary info"
case-insensitively the output is exactly the lines from the first such line
to the end, joined and trimmed; else if some line contains "failed"
case-insensitively the output is the lines from the first such line to the
end; else the output is only the last 40 lines. -/
theorem summarize_ci_log_spec :
  (∀ log, _summarize_ci_log log true = log) ∧
  (∀ b, _summarize_ci_log "" b = "") ∧
  (∀ log (i : Nat) (h : i < (summaryLines log).length), log ≠ "" →
     hasSummaryMarker (summaryLines log)[i] = true →
     (∀ j (hj : j < (summaryLines log).length), j < i →
        hasSummaryMarker (summaryLines log)[j] = false) →
     _summarize_ci_log log false = pyStrip (joinNL ((summaryLines log).drop i))) ∧
  (∀ log (i : Nat) (h : i < (summaryLines log).length), log ≠ "" →
     (∀ x ∈ summaryLines log, hasSummaryMarker x = false) →
     hasFailedMarker (summaryLines log)[i] = true →
     (∀ j (hj : j < (summaryLines log).length), j < i →
        hasFailedMarker (summaryLines log)[j] = false) →
     _summarize_ci_log log false = pyStrip (joinNL ((summaryLines log).drop i))) ∧
  (∀ log, log ≠ "" →
     (∀ x ∈ summaryLines log, hasSummaryMarker x = false ∧ hasFailedMarker x = false) →
     _summarize_ci_log log false =
       pyStrip (joinNL ((summaryLines log).drop ((summaryLines log).length - 40)))) := by
  refine ⟨?_, ?_, ?_, ?_, ?_⟩
  · intro log
    simp [_summarize_ci_log]
  · intro b
    simp [_summarize_ci_log]
  · intro log i h hne hmark hmin
    have hsome := firstIdxFrom_eq_some hasSummaryMarker (summaryLines log) i h hmark hmin
    have hnil : ¬ (summaryLines log = []) := by
      intro hc
      rw [hc] at h
      exact absurd h (by simp)
    simp only [_summarize_ci_log]
    rw [if_neg (by simp [hne]), if_neg hnil, hsome]
  · intro log i h hne hnos hmark hmin
    have hnone := firstIdxFrom_eq_none hasSummaryMarker (summaryLines log) hnos
    have hsome := firstIdxFrom_eq_some hasFailedMarker (summaryLines log) i h hmark hmin
    have hnil : ¬ (summaryLines log = []) := by
      intro hc
      rw [hc] at h
      exact absurd h (by simp)
    simp only [_summarize_ci_log]
    rw [if_neg (by simp [hne]), if_neg hnil, hnone, hsome]
  · intro log hne hall
    have hnone1 := firstIdxFrom_eq_none hasSummaryMarker (summaryLines log)
      (fun x hx => (hall x hx).1)
    have hnone2 := firstIdxFrom_eq_none hasFailedMarker (summaryLines log)
      (fun x hx => (hall x hx).2)
    by_cases hnil : summaryLines log = []
    · simp only [_summarize_ci_log]
      rw [if_neg (by simp [hne]), if_pos hnil, hnil]
      rfl
    · simp only [_summarize_ci_log]
      rw [if_neg (by simp [hne]), if_neg hnil, hnone1, hnone2]

theorem summarize_ci_log_spec_witness :
  _summarize_ci_log "a\nb SHORT TEST SUMMARY INFO\nc" false =
    "b SHORT TEST SUMMARY INFO\nc" ∧
  _summarize_ci_log "a\nFAILED t\nc" false = "FAILED t\nc" ∧
  _summarize_ci_log "a\nb\nc" false = "a\nb\nc" ∧
  _summarize_ci_log "x\ny" true = "x\ny" ∧
  _summarize_ci_log "" false = "" := by
  refine ⟨?_, ?_, ?_, summarize_ci_log_spec.1 "x\ny", summarize_ci_log_spec.2.1 false⟩
  · have h := summarize_ci_log_spec.2.2.1 "a\nb SHORT TEST SUMMARY INFO\nc" 1
      (by decide) (by decide) (by decide)
      (by intro j hj hlt; have hj0 : j = 0 := by omega
          subst hj0; rfl)
    exact h.trans (by decide)
  · have h := summarize_ci_log_spec.2.2.2.1 "a\nFAILED t\nc" 1
      (by decide) (by decide) (by decide) (by decide)
      (by intro j hj hlt; have hj0 : j = 0 := by omega
          subst hj0; rfl)
    exact h.trans (by decide)
  · have h := summarize_ci_log_spec.2.2.2.2 "a\nb\nc" (by decide) (by decide)
    exact h.trans (by decide)

/-! ## C4 / C10: CI collection -/

/-- The first-occurrence (by dedup key) sublist of the input runs. -/
def keptRuns (seen : List String) : List FailedRun → List FailedRun
  | [] => []
  | r :: rs =>
    if seen.contains (runKey r) then keptRuns seen rs
    else r :: keptRuns (runKey r :: seen) rs


theorem collectLoop_fst_map_meta (lenv : Int → Except String String) (flag : Bool) :
  ∀ (rs : List FailedRun) (seen : List String),
    ((collectLoop lenv flag seen rs).1).map ciMeta =
      (keptRuns seen rs).map
        (fun r => (pyOrStr r.name "Failed check", r.workflow_run_id, r.details_url,
                   r.workflow_url)) ∧
    (collectLoop lenv flag seen rs).2 =
      (keptRuns seen rs).filterMap (fun r => r.workflow_run_id) := by
  intro rs
  induction rs with
  | nil => intro seen; exact ⟨rfl, rfl⟩
  | cons r rs ih =>
    intro seen
    by_cases hc : runKey r ∈ seen
    · simp [collectLoop, keptRuns, hc, ih seen]
    · cases hr : r.workflow_run_id with
      | none =>
        simp [collectLoop, keptRuns, hc, hr, ciMeta, ih (runKey r :: seen),
          List.filterMap_cons]
      | some i =>
        cases hl : lenv i <;>
          simp [collectLoop, keptRuns, hc, hr, hl, ciMeta, ih (runKey r :: seen),
            List.filterMap_cons]

theorem collectLoop_fst_map_key (lenv : Int → Except String String) (flag : Bool) :
  ∀ (rs : List FailedRun) (seen : List String),
    ((collectLoop lenv flag seen rs).1).map ciFailureKey =
      dedupKeys seen (rs.map runKey) := by
  intro rs
  induction rs with
  | nil => intro seen; rfl
  | cons r rs ih =>
    intro seen
    by_cases hc : runKey r ∈ seen
    · simp [collectLoop, dedupKeys, hc, ih seen]
    · have ih' := ih (runKey r :: seen)
      cases hr : r.workflow_run_id with
      | none =>
        simp only [runKey, hr] at hc ih'
        simp [collectLoop, dedupKeys, hc, hr, ciFailureKey, runKey, ih']
      | some i =>
        simp only [runKey, hr] at hc ih'
        cases hl : lenv i <;>
          simp [collectLoop, dedupKeys, hc, hr, hl, ciFailureKey, runKey, ih']

theorem mem_dedupKeys_not_seen :
  ∀ (ks seen : List String) (k : String), k ∈ dedupKeys seen ks → k ∉ seen := by
  intro ks
  induction ks with
  | nil => intro seen k h; simp [dedupKeys] at h
  | cons a ks ih =>
    intro seen k h
    by_cases hc : a ∈ seen
    · exact ih seen k (by simpa [dedupKeys, hc] using h)
    · have h' : k ∈ a :: dedupKeys (a :: seen) ks := by simpa [dedupKeys, hc] using h
      rcases List.mem_cons.1 h' with rfl | hmem
      · exact hc
      · have hnot := ih (a :: seen) k hmem
        intro hk
        exact hnot (List.mem_cons_of_mem a hk)

theorem dedupKeys_nodup : ∀ (ks seen : List String), (dedupKeys seen ks).Nodup := by
  intro ks
  induction ks with
  | nil => intro seen; simp [dedupKeys]
  | cons a ks ih =>
    intro seen
    by_cases hc : a ∈ seen
    · simpa [dedupKeys, hc] using ih seen
    · have heq : dedupKeys seen (a :: ks) = a :: dedupKeys (a :: seen) ks := by
        simp [dedupKeys, hc]
      rw [heq]
      refine List.nodup_cons.2 ⟨?_, ih (a :: seen)⟩
      intro hmem
      exact (mem_dedupKeys_not_seen ks (a :: seen) a hmem) (List.mem_cons_self a seen)

/-- C4 (amended): `collect_ci_failures` deduplicates by the string key
`str(workflow_run_id)` when the id is present and otherwise by the
colon-joined string `f"{name}:{details_url}"` (which can conflate distinct
`(name, details_url)` pairs containing colons): the output entries correspond
exactly, in order, to the first occurrences of distinct string keys, these
keys are pairwise distinct, and two entries with identical `workflow_run_id`
collapse to a single `CIFailure` with the log-retrieval call for that id
occurring exactly once. -/
theorem collect_ci_failures_dedup :
  (∀ (lenv : Int → Except String String) (flag : Bool) (rs : List FailedRun),
     ((collect_ci_failures lenv flag rs).1).map ciFailureKey =
       dedupKeys [] (rs.map runKey)) ∧
  (∀ (seen ks : List String), (dedupKeys seen ks).Nodup) ∧
  (∀ (lenv : Int → Except String String) (flag : Bool) (n : Int)
     (r1 r2 : FailedRun),
     r1.workflow_run_id = some n → r2.workflow_run_id = some n →
     (collect_ci_failures lenv flag [r1, r2]).1.length = 1 ∧
     (collect_ci_failures lenv flag [r1, r2]).2 = [n]) := by
  refine ⟨?_, ?_, ?_⟩
  · intro lenv flag rs
    exact collectLoop_fst_map_key lenv flag rs []
  · intro seen ks
    exact dedupKeys_nodup ks seen
  · intro lenv flag n r1 r2 h1 h2
    constructor <;>
      cases hl : lenv n <;>
        simp [collect_ci_failures, collectLoop, runKey, h1, h2, hl]

def dupRun : FailedRun :=
  { name := some "ci", details_url := some "https://example.com/d",
    workflow_run_id := some 7, workflow_url := none }

theorem collect_ci_failures_dedup_witness :
  (collect_ci_failures (fun _ => .ok "log") false [dupRun, dupRun]).1.length = 1 ∧
  (collect_ci_failures (fun _ => .ok "log") false [dupRun, dupRun]).2 = [7] :=
  collect_ci_failures_dedup.2.2 (fun _ => .ok "log") false 7 dupRun dupRun rfl rfl

def collideRun1 : FailedRun :=
  { name := some "a:b", details_url := some "c", workflow_run_id := none,
    workflow_url := none }

def collideRun2 : FailedRun :=
  { name := some "a", details_url := some "b:c", workflow_run_id := none,
    workflow_url := none }

/-- C4 counterexample: two failed runs without run ids whose
`(name, details_url)` pairs differ — `("a:b", "c")` versus `("a", "b:c")` —
are collapsed to a single `CIFailure` because their colon-joined string keys
coincide, so deduplication is not by the pair. -/
theorem ci_dedup_not_by_pair :
  specPairKey collideRun1 ≠ specPairKey collideRun2 ∧
  collideRun1.workflow_run_id = none ∧ collideRun2.workflow_run_id = none ∧
  runKey collideRun1 = runKey collideRun2 ∧
  (collect_ci_failures (fun _ => .ok "log") false [collideRun1, collideRun2]).1.length
    = 1 := by
  refine ⟨by decide, rfl, rfl, by decide, by rfl⟩

/-- C10: a failed per-run log retrieval never aborts the collection: the
entries' non-log fields and the fetch trace are identical for every log
environment; a run whose log fetch fails gets the converted error message
(passed through the summarizer like any other log) as its `log_output`; and a
run without a run id gets the fixed placeholder with no fetch attempted. -/
theorem log_fetch_failure_absorbed :
  (∀ (lenv lenv' : Int → Except String String) (flag : Bool) (rs : List FailedRun),
     ((collect_ci_failures lenv flag rs).1).map ciMeta =
       ((collect_ci_failures lenv' flag rs).1).map ciMeta ∧
     (collect_ci_failures lenv flag rs).2 = (collect_ci_failures lenv' flag rs).2) ∧
  (∀ (lenv : Int → Except String String) (flag : Bool) (r : FailedRun)
     (n : Int) (msg : String),
     r.workflow_run_id = some n → lenv n = .error msg →
     (collect_ci_failures lenv flag [r]).1 =
       [{ name := pyOrStr r.name "Failed check", workflow_run_id := some n,
          details_url := r.details_url, workflow_url := r.workflow_url,
          log_output := _summarize_ci_log (logFailMsg n msg) flag }] ∧
     (collect_ci_failures lenv flag [r]).2 = [n]) ∧
  (∀ (lenv : Int → Except String String) (flag : Bool) (r : FailedRun),
     r.workflow_run_id = none →
     (collect_ci_failures lenv flag [r]).1 =
       [{ name := pyOrStr r.name "Failed check", workflow_run_id := none,
          details_url := r.details_url, workflow_url := r.workflow_url,
          log_output := _summarize_ci_log noRunIdMsg flag }] ∧
     (collect_ci_failures lenv flag [r]).2 = []) := by
  refine ⟨?_, ?_, ?_⟩
  · intro lenv lenv' flag rs
    have h1 := collectLoop_fst_map_meta lenv flag rs []
    have h2 := collectLoop_fst_map_meta lenv' flag rs []
    exact ⟨h1.1.trans h2.1.symm, h1.2.trans h2.2.symm⟩
  · intro lenv flag r n msg hr hl
    constructor <;> simp [collect_ci_failures, collectLoop, hr, hl]
  · intro lenv flag r hr
    constructor <;> simp [collect_ci_failures, collectLoop, hr]

def noIdRun : FailedRun :=
  { name := none, details_url := some "https://example.com/x",
    workflow_run_id := none, workflow_url := none }

theorem log_fetch_failure_absorbed_witness :
  (collect_ci_failures (fun _ => .error "boom") false [dupRun]).1 =
    [{ name := "ci", workflow_run_id := some 7,
       details_url := some "https://example.com/d", workflow_url := none,
       log_output := _summarize_ci_log (logFailMsg 7 "boom") false }] ∧
  (collect_ci_failures (fun _ => .error "boom") false [dupRun]).2 = [7] ∧
  (collect_ci_failures (fun _ => .error "boom") false [noIdRun]).1 =
    [{ name := "Failed check", workflow_run_id := none,
       details_url := some "https://example.com/x", workflow_url := none,
       log_output := _summarize_ci_log noRunIdMsg false }] ∧
  (collect_ci_failures (fun _ => .error "boom") false [noIdRun]).2 = [] := by
  have h1 := log_fetch_failure_absorbed.2.1 (fun _ => .error "boom") false dupRun 7
    "boom" rfl rfl
  have h2 := log_fetch_failure_absorbed.2.2 (fun _ => .error "boom") false noIdRun rfl
  refine ⟨?_, h1.2, ?_, h2.2⟩
  · simpa [dupRun, pyOrStr] using h1.1
  · simpa [noIdRun, pyOrStr] using h2.1

/-! ## C6: grouping and sorting in the renderer -/

theorem insertGrouped_fst :
  ∀ (m : List (String × List ReviewComment)) (k : String) (c : ReviewComment),
    (insertGrouped m k c).map Prod.fst =
      if k ∈ m.map Prod.fst then m.map Prod.fst else m.map Prod.fst ++ [k] := by
  intro m k c
  induction m with
  | nil => simp [insertGrouped]
  | cons hd tl ih =>
    obtain ⟨k', g⟩ := hd
    by_cases hk : k' = k
    · subst hk
      simp [insertGrouped]
    · rw [show insertGrouped ((k', g) :: tl) k c = (k', g) :: insertGrouped tl k c from
        by simp [insertGrouped, hk]]
      by_cases hmem : k ∈ tl.map Prod.fst
      · simp [ih, hmem, Ne.symm hk, List.mem_cons]
      · simp [ih, hmem, Ne.symm hk, List.mem_cons]

theorem groupByFile_concat (cs : List ReviewComment) (c : ReviewComment) :
  groupByFile (cs ++ [c]) = insertGrouped (groupByFile cs) c.path c := by
  simp [groupByFile, List.foldl_append]

theorem groupByFile_fst_nodup :
  ∀ cs : List ReviewComment, ((groupByFile cs).map Prod.fst).Nodup := by
  intro cs
  induction cs using List.reverseRecOn with
  | nil => simp [groupByFile]
  | append_singleton cs c ih =>
    rw [groupByFile_concat, insertGrouped_fst]
    by_cases hmem : c.path ∈ (groupByFile cs).map Prod.fst
    · simpa [hmem] using ih
    · simp [hmem, List.nodup_append, ih]

theorem mem_insertGrouped_cases :
  ∀ (m : List (String × List ReviewComment)) (k : String) (c : ReviewComment)
    (p : String) (g : List ReviewComment),
    (m.map Prod.fst).Nodup →
    (p, g) ∈ insertGrouped m k c →
    ((p, g) ∈ m ∧ p ≠ k) ∨
    (p = k ∧ ∃ g₀, (k, g₀) ∈ m ∧ g = g₀ ++ [c]) ∨
    (p = k ∧ g = [c] ∧ ∀ g', (k, g') ∉ m) := by
  intro m k c
  induction m with
  | nil =>
    intro p g _ h
    simp only [insertGrouped, List.mem_singleton, Prod.mk.injEq] at h
    exact Or.inr (Or.inr ⟨h.1, h.2, by simp⟩)
  | cons hd tl ih =>
    intro p g hnd h
    obtain ⟨k', g'⟩ := hd
    rw [List.map_cons, List.nodup_cons] at hnd
    by_cases hk : k' = k
    · subst hk
      rw [show insertGrouped ((k', g') :: tl) k' c = (k', g' ++ [c]) :: tl from
        by simp [insertGrouped]] at h
      rcases List.mem_cons.1 h with heq | hmem
      · injection heq with h1 h2
        subst h1
        subst h2
        exact Or.inr (Or.inl ⟨rfl, g', List.mem_cons_self _ _, rfl⟩)
      · by_cases hp : p = k'
        · subst hp
          exact absurd (List.mem_map_of_mem Prod.fst hmem) hnd.1
        · exact Or.inl ⟨List.mem_cons_of_mem _ hmem, hp⟩
    · rw [show insertGrouped ((k', g') :: tl) k c = (k', g') :: insertGrouped tl k c from
        by simp [insertGrouped, hk]] at h
      rcases List.mem_cons.1 h with heq | hmem
      · injection heq with h1 h2
        subst h1
        subst h2
        exact Or.inl ⟨List.mem_cons_self _ _, fun hpk => hk hpk⟩
      · rcases ih p g hnd.2 hmem with ⟨hm, hpk⟩ | ⟨rfl, g₀, hg₀, rfl⟩ | ⟨rfl, hg, hnone⟩
        · exact Or.inl ⟨List.mem_cons_of_mem _ hm, hpk⟩
        · exact Or.inr (Or.inl ⟨rfl, g₀, List.mem_cons_of_mem _ hg₀, rfl⟩)
        · refine Or.inr (Or.inr ⟨rfl, hg, ?_⟩)
          intro g'' hg''
          rcases List.mem_cons.1 hg'' with heq2 | hm2
          · exact hk (congrArg Prod.fst heq2).symm
          · exact hnone g'' hm2

theorem groupByFile_key_not_mem_filter :
  ∀ (cs : List ReviewComment) (k : String),
    k ∉ (groupByFile cs).map Prod.fst →
    cs.filter (fun x => x.path == k) = [] := by
  intro cs
  induction cs using List.reverseRecOn with
  | nil => intro k _; rfl
  | append_singleton cs c ih =>
    intro k hk
    rw [groupByFile_concat, insertGrouped_fst] at hk
    by_cases hmem : c.path ∈ (groupByFile cs).map Prod.fst
    · rw [if_pos hmem] at hk
      have hne : ¬ (c.path == k) = true := by
        intro hb
        exact hk ((eq_of_beq hb) ▸ hmem)
      simp [List.filter_append, ih k hk, hne]
    · rw [if_neg hmem] at hk
      simp only [List.mem_append, List.mem_singleton] at hk
      push_neg at hk
      have hne : ¬ (c.path == k) = true := by
        intro hb
        exact hk.2 (eq_of_beq hb).symm
      simp [List.filter_append, ih k hk.1, hne]

theorem mem_groupByFile_filter :
  ∀ (cs : List ReviewComment) (p : String) (g : List ReviewComment),
    (p, g) ∈ groupByFile cs → g = cs.filter (fun x => x.path == p) := by
  intro cs
  induction cs using List.reverseRecOn with
  | nil => intro p g h; simp [groupByFile] at h
  | append_singleton cs c ih =>
    intro p g h
    rw [groupByFile_concat] at h
    rcases mem_insertGrouped_cases (groupByFile cs) c.path c p g
        (groupByFile_fst_nodup cs) h with
      ⟨hm, hpk⟩ | ⟨rfl, g₀, hg₀, rfl⟩ | ⟨rfl, rfl, hnone⟩
    · have hne : ¬ (c.path == p) = true := by
        intro hb
        exact hpk (eq_of_beq hb).symm
      simp [List.filter_append, ← ih p g hm, hne]
    · simp [List.filter_append, ← ih c.path g₀ hg₀]
    · have hnotkey : c.path ∉ (groupByFile cs).map Prod.fst := by
        intro hmem
        rcases List.mem_map.1 hmem with ⟨⟨a, b⟩, hab, hfst⟩
        exact hnone b (by simpa [← hfst] using hab)
      simp [List.filter_append, groupByFile_key_not_mem_filter cs c.path hnotkey]

theorem orderedInsert_filter_key (k : Int) (a : ReviewComment) :
  ∀ l : List ReviewComment,
    (List.orderedInsert keyLE a l).filter (fun c => sortKeyCode c == k) =
      if sortKeyCode a == k then a :: l.filter (fun c => sortKeyCode c == k)
      else l.filter (fun c => sortKeyCode c == k) := by
  intro l
  induction l with
  | nil =>
    by_cases ha : (sortKeyCode a == k) = true <;>
      simp [List.orderedInsert, List.filter, ha]
  | cons b l ih =>
    by_cases hab : keyLE a b
    · rw [List.orderedInsert_of_le keyLE l hab]
      by_cases ha : (sortKeyCode a == k) = true <;> simp [List.filter, ha]
    · rw [show List.orderedInsert keyLE a (b :: l) =
          b :: List.orderedInsert keyLE a l from by
        simp [List.orderedInsert, hab]]
      by_cases ha : (sortKeyCode a == k) = true
      · have hba : sortKeyCode b < sortKeyCode a := by
          simp only [keyLE, not_le] at hab
          exact hab
        have hb : (sortKeyCode b == k) = false := by
          have hak : sortKeyCode a = k := by simpa using ha
          have : sortKeyCode b ≠ k := by omega
          simpa using this
        simp [List.filter_cons, hb, ih, ha]
      · simp only [List.filter_cons, ih, ha, if_neg ha]
        by_cases hb : (sortKeyCode b == k) = true <;> simp [hb]

theorem insertionSort_filter_key (k : Int) :
  ∀ l : List ReviewComment,
    (List.insertionSort keyLE l).filter (fun c => sortKeyCode c == k) =
      l.filter (fun c => sortKeyCode c == k) := by
  intro l
  induction l with
  | nil => rfl
  | cons a l ih =>
    rw [List.insertionSort, orderedInsert_filter_key, ih]
    by_cases ha : (sortKeyCode a == k) = true <;> simp [List.filter_cons, ha]

theorem sortedGroups_fst_lt (cs : List ReviewComment) :
  List.Pairwise (fun a b => pyStrLe a.1 b.1 = true ∧ a.1 ≠ b.1) (sortedGroups cs) := by
  have hsorted : List.Pairwise pathLE (List.insertionSort pathLE (groupByFile cs)) :=
    List.sorted_insertionSort pathLE (groupByFile cs)
  have hperm : (List.insertionSort pathLE (groupByFile cs)).Perm (groupByFile cs) :=
    List.perm_insertionSort pathLE (groupByFile cs)
  have hnodup : ((List.insertionSort pathLE (groupByFile cs)).map Prod.fst).Nodup :=
    ((hperm.map Prod.fst).nodup_iff).2 (groupByFile_fst_nodup cs)
  have hne : List.Pairwise (fun a b => a.1 ≠ b.1)
      (List.insertionSort pathLE (groupByFile cs)) :=
    List.pairwise_map.1 hnodup
  exact List.pairwise_map.2 (hsorted.and hne)

/-- C6 (amended): the renderer's file groups are emitted in strictly
ascending lexicographic path order; within each group the comments are sorted
ascending by the key "`line` if present and nonzero, else `original_line` if
present and nonzero, else 0" (Python truthiness: a line of 0 also falls
back), and the sort is stable: for every key value, the comments carrying it
appear exactly in arrival order of the group's members (the input comments
with that path). -/
theorem format_groups_sorted_stable :
  (∀ cs : List ReviewComment,
     List.Pairwise (fun a b => pyStrLe a.1 b.1 = true ∧ a.1 ≠ b.1) (sortedGroups cs)) ∧
  (∀ (cs : List ReviewComment) (p : String) (g : List ReviewComment),
     (p, g) ∈ sortedGroups cs →
     List.Pairwise keyLE g ∧
     ∀ k : Int, g.filter (fun c => sortKeyCode c == k) =
       (cs.filter (fun c => c.path == p)).filter (fun c => sortKeyCode c == k)) := by
  constructor
  · exact sortedGroups_fst_lt
  · intro cs p g hmem
    unfold sortedGroups at hmem
    rcases List.mem_map.1 hmem with ⟨⟨p₀, g₀⟩, hg₀, heq⟩
    injection heq with h1 h2
    subst h1
    subst h2
    have hg₀' : (p₀, g₀) ∈ groupByFile cs := (List.mem_insertionSort pathLE).1 hg₀
    have hfil := mem_groupByFile_filter cs p₀ g₀ hg₀'
    refine ⟨List.sorted_insertionSort keyLE g₀, ?_⟩
    intro k
    rw [insertionSort_filter_key, hfil]

def lineZeroComment : ReviewComment :=
  { path := "a.py", line := some 0, start_line := none, original_line := some 50,
    diff_hunk := some "", user_login := "u1", body := "x", url := none }

def lineTenComment : ReviewComment :=
  { path := "a.py", line := some 10, start_line := none, original_line := some 10,
    diff_hunk := some "", user_login := "u2", body := "y", url := none }

/-- C6 counterexample: the claim's key is "line, falling back to
original_line, defaulting to 0 when both are absent".  A comment with
`line = 0` and `original_line = 50` has claim key 0 but code key 50 (Python
`or` also falls through on 0), so the list [line 0/original 50, line 10] —
already ascending under the claim's key — renders in order [10, 0] under that
key, refuting the claimed ordering. -/
theorem sort_key_not_spec_key :
  specSortKey lineZeroComment = 0 ∧ specSortKey lineTenComment = 10 ∧
  sortKeyCode lineZeroComment = 50 ∧
  (sortedGroups [lineZeroComment, lineTenComment]).map
      (fun pg => pg.2.map specSortKey) = [[10, 0]] := by
  refine ⟨rfl, rfl, rfl, by decide⟩

def exB5 : ReviewComment :=
  { path := "b.py", line := some 5, start_line := none, original_line := some 5,
    diff_hunk := some "", user_login := "r1", body := "on b", url := none }

def exA20 : ReviewComment :=
  { path := "a.py", line := some 20, start_line := none, original_line := some 20,
    diff_hunk := some "", user_login := "r2", body := "at 20", url := none }

def exA5 : ReviewComment :=
  { path := "a.py", line := some 5, start_line := none, original_line := some 5,
    diff_hunk := some "", user_login := "r3", body := "at 5", url := none }

def exA15 : ReviewComment :=
  { path := "a.py", line := some 15, start_line := none, original_line := some 15,
    diff_hunk := some "", user_login := "r4", body := "at 15", url := none }

def exComments : List ReviewComment := [exB5, exA20, exA5, exA15]

def exSortedA : List ReviewComment := [exA5, exA15, exA20]

theorem format_groups_sorted_stable_witness :
  List.Pairwise (fun a b => pyStrLe a.1 b.1 = true ∧ a.1 ≠ b.1) (sortedGroups exComments) ∧
  List.Pairwise keyLE exSortedA ∧
  (exSortedA.filter (fun c => sortKeyCode c == 5) =
    (exComments.filter (fun c => c.path == "a.py")).filter
      (fun c => sortKeyCode c == 5)) ∧
  (sortedGroups exComments).map Prod.fst = ["a.py", "b.py"] ∧
  (sortedGroups exComments).map (fun pg => pg.2.map sortKeyCode) = [[5, 15, 20], [5]] := by
  have h := format_groups_sorted_stable.2 exComments "a.py" exSortedA (by decide)
  exact ⟨format_groups_sorted_stable.1 exComments, h.1, h.2 5, by decide, by decide⟩
